import Mathlib

/-!
A verification development for the AlliantApi client library.

The definitions below are a shallow embedding of the Python sources:

* `alliantapi/parameters.py` — parameter objects and filter-string escaping;
* `alliantapi/alliant_api_response.py` — the response envelope wrappers
  (`AlliantApiResponse`, `Collection`);
* `alliantapi/client.py` — the `Client` class: `login`, `logout`, the
  retry loop `_send_request`, the action-dispatch methods
  (`adjustment_action`, `contract_action`) and the resource lookup
  methods (`lookup_user_x`, `patch_user_x`, `create_user_x`,
  `lookup_adjustment`).

JSON values are modelled by a small JSON AST (`JsonVal`); Python `dict`s
carrying headers are modelled by association lists with first-occurrence
lookup and in-place overwrite (`dictSet`), matching `dict.__setitem__`
and `dict.update` semantics.  HTTP traffic is modelled by an oracle
environment (`Env`) that yields the server's successive responses, and
the observable behaviour of the client (sleeps, logout posts, login
posts, sends together with the headers they carry) is recorded in an
event trace.  Python exceptions raised by the modelled fragment are
represented with `Except`.
-/

namespace AlliantApi

/-! ### JSON values and Python-style dictionaries -/

inductive JsonVal where
  | null
  | bool (b : Bool)
  | num (n : Int)
  | str (s : String)
  | arr (xs : List JsonVal)
  | obj (fields : List (String × JsonVal))

/-- Python `dict.get(k)` on a parsed JSON object: the first binding of `k`,
or `None` (JSON `null` and Python `None` coincide after `json` parsing). -/
def dictGetJ : List (String × JsonVal) → String → JsonVal
  | [], _ => .null
  | (k', v) :: rest, k => if k' = k then v else dictGetJ rest k

/-- First-occurrence lookup in a string-valued dictionary (headers). -/
def dictLookup : List (String × String) → String → Option String
  | [], _ => none
  | (k', v) :: rest, k => if k' = k then some v else dictLookup rest k

/-- Python `d[k] = v`: overwrite the first binding in place, else append. -/
def dictSet : List (String × String) → String → String → List (String × String)
  | [], k, v => [(k, v)]
  | (k', v') :: rest, k, v =>
      if k' = k then (k, v) :: rest else (k', v') :: dictSet rest k v

/-- Python `d.update(u)`: set every binding of `u` into `d`, left to right. -/
def dictUpdate (d u : List (String × String)) : List (String × String) :=
  u.foldl (fun acc kv => dictSet acc kv.1 kv.2) d

/-! ### HTTP responses and the response envelope

`Response.body = none` models a body that is not parseable as a JSON
object (`response.json()` raises `JSONDecodeError`); `some fields` models
a parsed JSON object with the given bindings. -/

structure Response where
  status_code : Nat
  body : Option (List (String × JsonVal))

/-- The fields `AlliantApiResponse.__init__` extracts from the body
(`alliant_api_response.py`, lines 16–73). -/
structure AlliantApiResponse where
  status_code : Nat
  errors : JsonVal
  has_errors : JsonVal
  result : JsonVal
  warnings : JsonVal
  has_warnings : JsonVal

/-- `AlliantApiResponse.__init__`: on a parseable body each field is
`json().get(...)`; on `JSONDecodeError` the fields are set to
`[] / True / None / [] / False`. -/
def mkAlliantApiResponse (r : Response) : AlliantApiResponse :=
  match r.body with
  | some fields =>
      { status_code := r.status_code
        errors := dictGetJ fields "errors"
        has_errors := dictGetJ fields "hasErrors"
        result := dictGetJ fields "result"
        warnings := dictGetJ fields "warnings"
        has_warnings := dictGetJ fields "hasWarnings" }
  | none =>
      { status_code := r.status_code
        errors := .arr []
        has_errors := .bool true
        result := .null
        warnings := .arr []
        has_warnings := .bool false }

/-! ### Filter preprocessing (`CollectionParameters._preprocess_filter`)

`parameters.py`, lines 117–127:
`return string.replace(chr 39, backslash-quote).replace(space, plus)`.
Strings are modelled as character lists; both `str.replace` calls have a
single-character needle, so they act independently on each character. -/

/-- `string.replace` with needle a single quote and replacement
backslash-then-quote: every quote character is expanded in place. -/
def replaceQuote : List Char → List Char
  | [] => []
  | c :: rest =>
      if c = '\'' then '\\' :: '\'' :: replaceQuote rest
      else c :: replaceQuote rest

/-- `string.replace` with needle a space and replacement a plus sign. -/
def replaceSpace (s : List Char) : List Char :=
  s.map fun c => if c = ' ' then '+' else c

/-- `CollectionParameters._preprocess_filter`: quotes escaped first,
then spaces turned into plus signs, exactly in the source's order. -/
def preprocess_filter (s : List Char) : List Char :=
  replaceSpace (replaceQuote s)

/-- Modelled from the spec: the missing test-double server that inverts
the escaping (spec §8, "round-trips to the same logical filter when
parsed back by a test double server"): plus signs are read back as
spaces, then backslash-quote pairs are read back as quotes. -/
def decode_filter_plus (s : List Char) : List Char :=
  s.map fun c => if c = '+' then ' ' else c

/-- Modelled from the spec: second half of the test-double server's
inversion — collapse each backslash-quote pair back to a quote. -/
def decode_filter_quote : List Char → List Char
  | [] => []
  | [c] => [c]
  | c :: d :: rest =>
      if c = '\\' ∧ d = '\'' then '\'' :: decode_filter_quote rest
      else c :: decode_filter_quote (d :: rest)

/-- Modelled from the spec: the full inversion performed by the test
double server. -/
def decode_filter (s : List Char) : List Char :=
  decode_filter_quote (decode_filter_plus s)

/-! ### Requests and pre-flight errors -/

inductive Method where
  | GET
  | PUT
  | POST
  | DELETE
deriving DecidableEq

/-- A `requests.Request` as built by the client methods: the logical
request handed to `_send_request`. -/
structure Request where
  method : Method
  url : String
  params : Option String := none
  jsonBody : Option (List (String × JsonVal)) := none

/-- Python runtime errors raised by the modelled fragment. -/
inductive PyError where
  | attributeError
  | typeError
deriving DecidableEq

/-- The two pre-flight exceptions of `exceptions.py`. -/
inductive ActionError where
  | actionNotImplemented
  | commentRequired
deriving DecidableEq

/-! ### `ResourceParameters` (`parameters.py`, lines 8–59) -/

structure ResourceParameters where
  verbosity : Option String := none
  includeFields : Option (List String) := none
  excludeFields : Option (List String) := none

/-- `ResourceParameters.form_param_string`: `None` for a falsy list,
else a dollar sign followed by the ampersand-join. -/
def form_param_string (param_list : List String) : Option String :=
  if param_list.isEmpty then none
  else some ("$" ++ String.intercalate "&" param_list)

/-- `ResourceParameters.parameter_string`, with Python truthiness on the
optional fields (`None` and empty values are both falsy). -/
def ResourceParameters.parameter_string (p : ResourceParameters) : Option String :=
  let l1 : List String :=
    match p.verbosity with
    | some v => if v.isEmpty then [] else [v]
    | none => []
  let l2 : List String :=
    match p.includeFields with
    | some xs => if xs.isEmpty then l1
                 else l1 ++ ["include=" ++ String.intercalate "," xs]
    | none => l1
  let l3 : List String :=
    match p.excludeFields with
    | some xs => if xs.isEmpty then l2
                 else l2 ++ ["exclude=" ++ String.intercalate "," xs]
    | none => l2
  form_param_string l3

/-- Python attribute call `rp.parameter_string()` on an optional
receiver: on `None` it raises `AttributeError`. -/
def callParameterString : Option ResourceParameters → Except PyError (Option String)
  | none => .error .attributeError
  | some p => .ok p.parameter_string

/-! ### URL attributes set in `Client.__init__` (client.py 126–131) -/

def user_x_url_base (base_url : String) : String := base_url ++ "/data/user"

def adjustment_headers_url (base_url : String) : String :=
  base_url ++ "/data/adjustmentHeaders"

def contracts_url (base_url : String) : String := base_url ++ "/data/contracts"

/-! ### Resource lookup methods, up to the `_send_request` call

Each definition models the corresponding `Client` method from the start
of its body to the point the built `requests.Request` is handed to
`_send_request`; an `AttributeError` raised on the way is the `.error`
case. -/

/-- `Client.lookup_user_x` (client.py 322–346): default
`resource_parameters=None`, and `resource_parameters.parameter_string()`
is called unconditionally. -/
def lookup_user_x (base_url tc_number guid : String)
    (resource_parameters : Option ResourceParameters := none) :
    Except PyError Request :=
  let user_x_url := user_x_url_base base_url ++ tc_number
  (callParameterString resource_parameters).map fun params =>
    { method := .GET, url := user_x_url ++ "/" ++ guid, params := params }

/-- `Client.patch_user_x` (client.py 348–374): default
`resource_parameters=ResourceParameters(None)`. -/
def patch_user_x (base_url tc_number guid : String)
    (body : List (String × JsonVal))
    (resource_parameters : Option ResourceParameters := some {}) :
    Except PyError Request :=
  let user_x_url := user_x_url_base base_url ++ tc_number ++ "/" ++ guid
  (callParameterString resource_parameters).map fun params =>
    { method := .PUT, url := user_x_url, jsonBody := some body, params := params }

/-- `Client.create_user_x` (client.py 376–402): default
`resource_parameters=ResourceParameters(None)`. -/
def create_user_x (base_url tc_number : String)
    (body : List (String × JsonVal))
    (resource_parameters : Option ResourceParameters := some {}) :
    Except PyError Request :=
  let user_x_url := user_x_url_base base_url ++ tc_number
  (callParameterString resource_parameters).map fun params =>
    { method := .POST, url := user_x_url, jsonBody := some body, params := params }

/-- `Client.lookup_adjustment` (client.py 485–505): default
`resource_parameters=ResourceParameters(None)`. -/
def lookup_adjustment (base_url guid : String)
    (resource_parameters : Option ResourceParameters := some {}) :
    Except PyError Request :=
  (callParameterString resource_parameters).map fun params =>
    { method := .GET, url := adjustment_headers_url base_url ++ "/" ++ guid,
      params := params }

/-! ### Action dispatch (client.py 525–565 and 665–703) -/

def adjustment_available_actions : List String :=
  ["approve", "clear", "clearRequest", "copy", "insetup", "post", "complete"]

def adjustment_actions_requiring_comment : List String :=
  ["approve", "clearRequest"]

def contract_available_actions : List String :=
  ["approve", "complete", "copy", "insetup", "model", "resolve", "revise"]

def contract_actions_requiring_comment : List String := ["approve"]

/-- `Client.adjustment_action` up to the `_send_request` call: the two
pre-flight checks run before any request object exists, so a raised
exception is an `.error` produced with no `Request` in sight. -/
def adjustment_action (base_url guid action : String)
    (comment : Option String := none) : Except ActionError Request :=
  if action ∉ adjustment_available_actions then .error .actionNotImplemented
  else if action ∈ adjustment_actions_requiring_comment ∧ comment = none then
    .error .commentRequired
  else
    let action_url := adjustment_headers_url base_url ++ "/" ++ action ++ "/" ++ guid
    if action ∈ adjustment_actions_requiring_comment then
      .ok { method := .PUT, url := action_url,
            jsonBody := some [("comment",
              match comment with
              | some c => .str c
              | none => .null)] }
    else .ok { method := .PUT, url := action_url }

/-- `Client.contract_action` up to the `_send_request` call. -/
def contract_action (base_url guid action : String)
    (comment : Option String := none) : Except ActionError Request :=
  if action ∉ contract_available_actions then .error .actionNotImplemented
  else if action ∈ contract_actions_requiring_comment ∧ comment = none then
    .error .commentRequired
  else
    let action_url := contracts_url base_url ++ "/" ++ action ++ "/" ++ guid
    if action ∈ contract_actions_requiring_comment then
      .ok { method := .PUT, url := action_url,
            jsonBody := some [("comment",
              match comment with
              | some c => .str c
              | none => .null)] }
    else .ok { method := .PUT, url := action_url }

/-! ### The session state machine: `login`, `logout`, `_send_request`

The mutable attributes of a `Client` instance that the retry logic
touches; `headers` models `self.headers` and `session_headers` models
`self.session.headers` (restricted to the headers the client itself
manages). -/

structure ClientState where
  token : Option String
  token_expires : Option String
  headers : List (String × String)
  session_headers : List (String × String)

/-- The `result` object of a login response body; `response.json()`
indexing with a missing key raises `KeyError`, modelled by `none`. -/
structure LoginResult where
  token : Option String
  expires : Option String

/-- A login response: a JSON object whose `result` key may be absent. -/
structure LoginResponse where
  status_code : Nat
  result : Option LoginResult

/-- Observable effects of one `_send_request` run, in order: `time.sleep`
calls, the logout POST (with the headers it sends), the login POST, and
each `session.send` of the prepared request (with the headers the
prepared request carries). -/
inductive Event where
  | sleep (seconds : Nat)
  | logoutPost (headers : List (String × String))
  | loginPost
  | send (headers : List (String × String))

/-- The server oracle: the responses the transport will deliver for the
successive `session.send` calls and the successive login POSTs, together
with how many of each have already been consumed. -/
@[ext]
structure Env where
  sendResp : Nat → Response
  loginResp : Nat → LoginResponse
  sendIdx : Nat
  loginIdx : Nat

/-- The retry configuration set in `Client.__init__` (client.py
108–111): `number_of_retries`, `retry_delay`, `retry_backoff`,
`error_codes_to_retry = [500, 403, 409]`. -/
structure Config where
  number_of_retries : Nat
  retry_delay : Nat
  retry_backoff : Nat
  error_codes_to_retry : List Nat

/-- `Client.logout` (client.py 171–189): POST to the logout endpoint
with the current `self.headers`, then unconditionally clear the token.
Neither `self.headers` nor the session headers are touched. -/
def logout (st : ClientState) : ClientState × List Event :=
  ({ st with token := none }, [Event.logoutPost st.headers])

/-- The state mutation performed by `Client.login` on the parsed login
response body (client.py 157–165): the assignments run in source order,
each missing key raises `KeyError` and is caught, so the headers are
rebuilt only when both `token` and `expires` are present. -/
def applyLoginBody (st : ClientState) (resp : LoginResponse) : ClientState :=
  match resp.result with
  | none => st
  | some r =>
    match r.token with
    | none => st
    | some t =>
      let st1 := { st with token := some t }
      match r.expires with
      | none => st1
      | some e =>
        let st2 := { st1 with token_expires := some e }
        let hdrs := dictSet st2.headers "X-AlliantSession" t
        { st2 with headers := hdrs,
                   session_headers := dictUpdate st2.session_headers hdrs }

/-- `Client.login` (client.py 133–169): an implicit `logout` when a
truthy token is already set (`if self.token:` — `None` and the empty
string are falsy), then the login POST; the raw login response is
returned (wrapped as an `AlliantApiResponse`) on every path, and no
exception escapes the modelled fragment. -/
def login (st : ClientState) (env : Env) :
    ClientState × Env × List Event × LoginResponse :=
  let pre : ClientState × List Event :=
    match st.token with
    | some t => if t.isEmpty then (st, []) else logout st
    | none => (st, [])
  let resp := env.loginResp env.loginIdx
  (applyLoginBody pre.1 resp,
   { env with loginIdx := env.loginIdx + 1 },
   pre.2 ++ [Event.loginPost],
   resp)

/-- `self.session.prepare_request(req)` followed by
`self.session.send(prepped)` (client.py 202–204, 224–225): the prepared
request carries the session's current headers, and the server's next
response is consumed from the oracle. -/
def session_send (st : ClientState) (env : Env) : Response × Env × Event :=
  (env.sendResp env.sendIdx, { env with sendIdx := env.sendIdx + 1 },
   Event.send st.session_headers)

/-- The outcome of a `_send_request` run: final client state, remaining
oracle, recorded event trace, and the response returned to the caller. -/
@[ext]
structure RunResult where
  state : ClientState
  env : Env
  trace : List Event
  response : Response

/-- The `while` loop of `Client._send_request` (client.py 207–239).
`fuel` is `number_of_retries - retried_count`; the loop is entered with
`fuel = number_of_retries > 0`, and the source's
`retried_count == self.number_of_retries` break corresponds to the inner
`fuel = 0` test after the resend.  The backoff multiplication
(line 239) is skipped on the breaking iteration exactly as in the
source. -/
def retryLoop (codes : List Nat) (backoff : Nat) :
    Nat → Nat → ClientState → Env → List Event → Response → RunResult
  | 0, _, st, env, tr, resp => ⟨st, env, tr, resp⟩
  | fuel + 1, retry_time, st, env, tr, resp =>
    if resp.status_code ∈ codes then
      let lo := logout st
      let li := login lo.1 env
      let se := session_send li.1 li.2.1
      let tr2 := tr ++ [Event.sleep retry_time] ++ lo.2 ++ li.2.2.1
                    ++ [Event.sleep 1] ++ [se.2.2]
      if fuel = 0 then ⟨li.1, se.2.1, tr2, se.1⟩
      else retryLoop codes backoff fuel (retry_time * backoff) li.1 se.2.1 tr2 se.1
    else ⟨st, env, tr, resp⟩

/-- `Client._send_request` (client.py 191–241): prepare and send once,
then run the retry loop only if `number_of_retries > 0`. -/
def send_request (cfg : Config) (st : ClientState) (env : Env) : RunResult :=
  let first := session_send st env
  if 0 < cfg.number_of_retries then
    retryLoop cfg.error_codes_to_retry cfg.retry_backoff
      cfg.number_of_retries cfg.retry_delay st first.2.1 [first.2.2] first.1
  else ⟨st, first.2.1, [first.2.2], first.1⟩

/-- The visible shape of one retry attempt: sleep the backoff delay,
logout (posting the headers current at that moment), login, sleep the
fixed one-second settle delay, resend (with the headers current after
re-login). -/
def attemptBlock (delay : Nat) (hOut hIn : List (String × String)) : List Event :=
  [Event.sleep delay, Event.logoutPost hOut, Event.loginPost,
   Event.sleep 1, Event.send hIn]

/-- The responses a `_send_request` run sees: index `0` is the response
already in hand when the loop condition is examined, index `i + 1` the
response to the `i`-th resend. -/
def nthResp (resp : Response) (env : Env) : Nat → Response
  | 0 => resp
  | i + 1 => env.sendResp (env.sendIdx + i)

/-- The `time.sleep` durations of a trace, in order. -/
def sleepsOf (tr : List Event) : List Nat :=
  tr.filterMap fun e =>
    match e with
    | .sleep t => some t
    | _ => none

/-- Recognizer for the login POST event. -/
def isLoginPost : Event → Bool
  | .loginPost => true
  | _ => false

/-- Recognizer for the logout POST event. -/
def isLogoutPost : Event → Bool
  | .logoutPost _ => true
  | _ => false

/-- The number of retry attempts a `_send_request` run performed,
read off its trace as the number of login POSTs. -/
def numAttempts (cfg : Config) (st : ClientState) (env : Env) : Nat :=
  (send_request cfg st env).trace.countP isLoginPost

/-- The client state after the logout-then-login cycle of one retry
attempt, as a function of the pre-attempt state and the login response
the re-login receives. -/
def retryCycleState (st : ClientState) (body : LoginResponse) : ClientState :=
  applyLoginBody { st with token := none } body

/-- Prepend a value to a `Nat`-indexed sequence. -/
def consFun {α : Type _} (a : α) (f : Nat → α) : Nat → α
  | 0 => a
  | i + 1 => f i

/-! ### The `Collection` response view (alliant_api_response.py 76–86) -/

structure Collection where
  base : AlliantApiResponse
  next_page_url : JsonVal
  previous_page_url : JsonVal
  items : JsonVal
  item_count : JsonVal
  total_item_count : JsonVal
  guids : List JsonVal

/-- Python `x.get(k)` where `x` is the `result` attribute: valid only
when the result is a JSON object; on anything else (`None`, a list, a
scalar) the attribute access raises. -/
def jsonGet : JsonVal → String → Except PyError JsonVal
  | .obj fields, k => .ok (dictGetJ fields k)
  | _, _ => .error .attributeError

/-- Iterating over `self.items` in the list comprehension: valid over a
JSON array, a `TypeError` otherwise. -/
def jsonElems : JsonVal → Except PyError (List JsonVal)
  | .arr xs => .ok xs
  | _ => .error .typeError

/-- `Collection.__init__`, applied after the `AlliantApiResponse` fields
have been set; the assignments run in source order.  Note that the
source reads the envelope's `previousPageUrl` into the attribute
`next_page_url` and the envelope's `nextPageUrl` into
`previous_page_url`. -/
def mkCollection (r : Response) : Except PyError Collection := do
  let base := mkAlliantApiResponse r
  let npu ← jsonGet base.result "previousPageUrl"
  let ppu ← jsonGet base.result "nextPageUrl"
  let items ← jsonGet base.result "items"
  let ic ← jsonGet base.result "itemCount"
  let tic ← jsonGet base.result "totalItemCount"
  let elems ← jsonElems items
  let guids ← elems.mapM fun it => jsonGet it "guid"
  .ok { base := base, next_page_url := npu, previous_page_url := ppu,
        items := items, item_count := ic, total_item_count := tic,
        guids := guids }

/-- A collection response whose envelope carries distinct page URLs:
`nextPageUrl = "NEXT"`, `previousPageUrl = "PREV"`, two items. -/
def demoCollectionResponse : Response :=
  { status_code := 200,
    body := some
      [("hasErrors", .bool false), ("errors", .arr []),
       ("warnings", .arr []), ("hasWarnings", .bool false),
       ("result", .obj
         [("items", .arr [.obj [("guid", .str "g1")], .obj [("guid", .str "g2")]]),
          ("itemCount", .num 2), ("totalItemCount", .num 10),
          ("previousPageUrl", .str "PREV"), ("nextPageUrl", .str "NEXT")])] }

/-! ### Concrete demonstration inputs -/

/-- The constructor defaults of `Client.__init__`, with
`number_of_retries` lowered to 2. -/
def demoConfig : Config :=
  { number_of_retries := 2, retry_delay := 3, retry_backoff := 2,
    error_codes_to_retry := [500, 403, 409] }

/-- A freshly constructed client: no token, empty header dicts. -/
def demoState : ClientState :=
  { token := none, token_expires := none, headers := [], session_headers := [] }

/-- A server that fails the first send with a 500 and then recovers;
logins always succeed with a fresh token. -/
def demoEnv : Env :=
  { sendResp := fun n => if n = 0 then ⟨500, none⟩ else ⟨200, some []⟩,
    loginResp := fun _ => ⟨200, some ⟨some "tok2", some "exp2"⟩⟩,
    sendIdx := 0, loginIdx := 0 }

/-- A logged-in client whose headers carry its current token. -/
def staleState : ClientState :=
  { token := some "oldtok", token_expires := some "oldexp",
    headers := [("X-AlliantSession", "oldtok")],
    session_headers := [("X-AlliantSession", "oldtok")] }

/-- A server whose login responses carry a `result` object with no
`token` field. -/
def failLoginEnv : Env :=
  { sendResp := fun _ => ⟨200, some []⟩,
    loginResp := fun _ => ⟨401, some ⟨none, none⟩⟩,
    sendIdx := 0, loginIdx := 0 }

/-! ## Theorems -/

/-! ### Dictionary lemmas -/

theorem dictLookup_dictSet_self (d : List (String × String)) (k v : String) :
    dictLookup (dictSet d k v) k = some v := by
  induction d with
  | nil => simp [dictSet, dictLookup]
  | cons kv rest ih =>
      by_cases h : kv.1 = k
      · simp [dictSet, dictLookup, h]
      · simp [dictSet, dictLookup, h, ih]

theorem dictLookup_dictSet_ne (d : List (String × String)) (k k' v : String)
    (h : k' ≠ k) : dictLookup (dictSet d k' v) k = dictLookup d k := by
  induction d with
  | nil => simp [dictSet, dictLookup, h]
  | cons kv rest ih =>
      by_cases h2 : kv.1 = k'
      · simp [dictSet, dictLookup, h2, h]
      · simp [dictSet, dictLookup, h2, ih]

theorem dictLookup_dictUpdate_not_mem (u : List (String × String)) :
    ∀ d k, k ∉ u.map Prod.fst → dictLookup (dictUpdate d u) k = dictLookup d k := by
  induction u with
  | nil => intro d k _; rfl
  | cons kv rest ih =>
      intro d k hk
      have h1 : kv.1 ≠ k := by
        intro h; exact hk (by simp [h.symm])
      have h2 : k ∉ rest.map Prod.fst := by
        intro h; exact hk (by simp [h])
      show dictLookup (dictUpdate (dictSet d kv.1 kv.2) rest) k = dictLookup d k
      rw [ih _ _ h2, dictLookup_dictSet_ne _ _ _ _ h1]

theorem dictLookup_dictUpdate_dictSet (d : List (String × String)) (k v : String) :
    ∀ sh, (d.map Prod.fst).Nodup →
      dictLookup (dictUpdate sh (dictSet d k v)) k = some v := by
  induction d with
  | nil =>
      intro sh _
      show dictLookup (dictUpdate (dictSet sh k v) []) k = some v
      exact dictLookup_dictSet_self sh k v
  | cons kv rest ih =>
      intro sh hnd
      rcases List.nodup_cons.mp
        (show (kv.1 :: rest.map Prod.fst).Nodup from hnd) with ⟨hhead, htail⟩
      by_cases h : kv.1 = k
      · show dictLookup (dictUpdate sh (if kv.1 = k then (k, v) :: rest
            else (kv.1, kv.2) :: dictSet rest k v)) k = some v
        rw [if_pos h]
        show dictLookup (dictUpdate (dictSet sh k v) rest) k = some v
        rw [dictLookup_dictUpdate_not_mem rest _ _ (h ▸ hhead),
            dictLookup_dictSet_self]
      · show dictLookup (dictUpdate sh (if kv.1 = k then (k, v) :: rest
            else (kv.1, kv.2) :: dictSet rest k v)) k = some v
        rw [if_neg h]
        show dictLookup (dictUpdate (dictSet sh kv.1 kv.2) (dictSet rest k v)) k = some v
        exact ih _ htail

/-! ### Filter escaping lemmas (claim C8) -/

theorem plus_not_mem_replaceQuote (s : List Char) (h : '+' ∉ s) :
    '+' ∉ replaceQuote s := by
  induction s with
  | nil => simp [replaceQuote]
  | cons c rest ih =>
      have hc : c ≠ '+' := fun hh => h (hh ▸ List.mem_cons_self c rest)
      have hr : '+' ∉ rest := fun hh => h (List.mem_cons_of_mem c hh)
      by_cases hq : c = '\''
      · simp only [replaceQuote, if_pos hq, List.mem_cons]
        push_neg
        exact ⟨by decide, by decide, ih hr⟩
      · simp only [replaceQuote, if_neg hq, List.mem_cons]
        push_neg
        exact ⟨hc.symm, ih hr⟩

theorem decode_plus_replaceSpace (s : List Char) (h : '+' ∉ s) :
    decode_filter_plus (replaceSpace s) = s := by
  induction s with
  | nil => rfl
  | cons c rest ih =>
      have hc : c ≠ '+' := fun hh => h (hh ▸ List.mem_cons_self c rest)
      have hr : '+' ∉ rest := fun hh => h (List.mem_cons_of_mem c hh)
      have ih2 := ih hr
      by_cases hsp : c = ' '
      · show decode_filter_plus ((if c = ' ' then '+' else c) :: replaceSpace rest)
            = c :: rest
        rw [if_pos hsp]
        show (if '+' = '+' then ' ' else '+') :: decode_filter_plus (replaceSpace rest)
            = c :: rest
        rw [if_pos rfl, ih2, hsp]
      · show decode_filter_plus ((if c = ' ' then '+' else c) :: replaceSpace rest)
            = c :: rest
        rw [if_neg hsp]
        show (if c = '+' then ' ' else c) :: decode_filter_plus (replaceSpace rest)
            = c :: rest
        rw [if_neg hc, ih2]

theorem decode_quote_replaceQuote (s : List Char) (h : '\\' ∉ s) :
    decode_filter_quote (replaceQuote s) = s := by
  induction s with
  | nil => rfl
  | cons c rest ih =>
      have hc : c ≠ '\\' := fun hh => h (hh ▸ List.mem_cons_self c rest)
      have hr : '\\' ∉ rest := fun hh => h (List.mem_cons_of_mem c hh)
      have ih2 := ih hr
      by_cases hq : c = '\''
      · simp only [replaceQuote, if_pos hq]
        rw [decode_filter_quote, if_pos ⟨rfl, rfl⟩, ih2, hq]
      · simp only [replaceQuote, if_neg hq]
        cases hrq : replaceQuote rest with
        | nil =>
            rw [hrq] at ih2
            have hrest : rest = [] := by simpa [decode_filter_quote] using ih2.symm
            subst hrest
            rfl
        | cons d tl =>
            rw [hrq] at ih2
            rw [decode_filter_quote, if_neg (fun hand => hc hand.1), ih2]

theorem space_not_mem_preprocess (s : List Char) : ' ' ∉ preprocess_filter s := by
  intro hmem
  unfold preprocess_filter replaceSpace at hmem
  rcases List.mem_map.mp hmem with ⟨c, _, hc⟩
  by_cases h : c = ' '
  · rw [if_pos h] at hc
    exact absurd hc (by decide)
  · rw [if_neg h] at hc
    exact h hc

/-- C8 counterexample: the escaping is not invertible on all inputs —
the two distinct logical filter values `a+b` and `a b` are sent in the
same wire form, so no server inverting the escaping can recover both;
the round trip claimed for every input value fails at the input `a+b`. -/
theorem preprocess_filter_collision :
    preprocess_filter ['a', '+', 'b'] = preprocess_filter ['a', ' ', 'b'] ∧
    (['a', '+', 'b'] : List Char) ≠ ['a', ' ', 'b'] :=
  ⟨rfl, by decide⟩

/-- C8 (amended): `_preprocess_filter` escapes every single quote with a
backslash and turns every space into a plus sign (in particular the
spec's example value transforms as claimed and the output contains no
space), and the transformation round-trips through a server that inverts
the escaping for every value that contains neither a plus sign nor a
backslash; it does not round-trip for arbitrary values. -/
theorem preprocess_filter_escape_round_trip :
    preprocess_filter ['O', '\'', 'B', 'r', 'i', 'e', 'n', ' ', 't', 'e', 's', 't'] =
      ['O', '\\', '\'', 'B', 'r', 'i', 'e', 'n', '+', 't', 'e', 's', 't'] ∧
    (∀ s : List Char, ' ' ∉ preprocess_filter s) ∧
    (∀ s : List Char, '+' ∉ s → '\\' ∉ s →
      decode_filter (preprocess_filter s) = s) := by
  refine ⟨rfl, space_not_mem_preprocess, ?_⟩
  intro s hplus hback
  unfold decode_filter preprocess_filter
  rw [decode_plus_replaceSpace _ (plus_not_mem_replaceQuote s hplus),
      decode_quote_replaceQuote s hback]

/-- Witness for the amended C8 round trip at the spec's example value. -/
theorem preprocess_filter_escape_round_trip_witness :
    '+' ∉ (['O', '\'', 'B', 'r', 'i', 'e', 'n', ' ', 't', 'e', 's', 't'] : List Char) ∧
    decode_filter
        (preprocess_filter ['O', '\'', 'B', 'r', 'i', 'e', 'n', ' ', 't', 'e', 's', 't']) =
      ['O', '\'', 'B', 'r', 'i', 'e', 'n', ' ', 't', 'e', 's', 't'] :=
  ⟨by decide, preprocess_filter_escape_round_trip.2.2 _ (by decide) (by decide)⟩

/-! ### Claim C3: action dispatch pre-flight validation -/

/-- C3: `adjustment_action` and `contract_action` raise
`ActionNotImplemented` for an action outside the resource's fixed
allow-list and `CommentRequired` for a comment-requiring action invoked
without a comment; in both failure cases the result is an error carrying
no request, and a request value exists exactly when both pure, local
checks pass. -/
theorem action_dispatch_preflight (base_url guid action : String)
    (comment : Option String) :
    (action ∉ adjustment_available_actions →
      adjustment_action base_url guid action comment = .error .actionNotImplemented) ∧
    (action ∈ adjustment_available_actions →
      action ∈ adjustment_actions_requiring_comment → comment = none →
      adjustment_action base_url guid action comment = .error .commentRequired) ∧
    ((∃ r, adjustment_action base_url guid action comment = .ok r) ↔
      action ∈ adjustment_available_actions ∧
      (action ∈ adjustment_actions_requiring_comment → comment ≠ none)) ∧
    (action ∉ contract_available_actions →
      contract_action base_url guid action comment = .error .actionNotImplemented) ∧
    (action ∈ contract_available_actions →
      action ∈ contract_actions_requiring_comment → comment = none →
      contract_action base_url guid action comment = .error .commentRequired) ∧
    ((∃ r, contract_action base_url guid action comment = .ok r) ↔
      action ∈ contract_available_actions ∧
      (action ∈ contract_actions_requiring_comment → comment ≠ none)) := by
  refine ⟨?_, ?_, ?_, ?_, ?_, ?_⟩
  · intro h
    simp [adjustment_action, h]
  · intro h1 h2 h3
    simp [adjustment_action, h1, h2, h3]
  · constructor
    · rintro ⟨r, hr⟩
      by_cases h1 : action ∈ adjustment_available_actions
      · refine ⟨h1, fun h2 h3 => ?_⟩
        simp [adjustment_action, h1, h2, h3] at hr
      · simp [adjustment_action, h1] at hr
    · rintro ⟨h1, h2⟩
      by_cases h3 : action ∈ adjustment_actions_requiring_comment
      · simp [adjustment_action, h1, h3, h2 h3]
      · simp [adjustment_action, h1, h3]
  · intro h
    simp [contract_action, h]
  · intro h1 h2 h3
    simp [contract_action, h1, h2, h3]
  · constructor
    · rintro ⟨r, hr⟩
      by_cases h1 : action ∈ contract_available_actions
      · refine ⟨h1, fun h2 h3 => ?_⟩
        simp [contract_action, h1, h2, h3] at hr
      · simp [contract_action, h1] at hr
    · rintro ⟨h1, h2⟩
      by_cases h3 : action ∈ contract_actions_requiring_comment
      · simp [contract_action, h1, h3, h2 h3]
      · simp [contract_action, h1, h3]

/-- Witness for C3: the spec's two failing examples and a passing call,
on both resources. -/
theorem action_dispatch_preflight_witness :
    adjustment_action "http://h/api" "g1" "bogus" none = .error .actionNotImplemented ∧
    adjustment_action "http://h/api" "g1" "approve" none = .error .commentRequired ∧
    (∃ r, adjustment_action "http://h/api" "g1" "clear" none = .ok r) ∧
    contract_action "http://h/api" "g1" "bogus" none = .error .actionNotImplemented ∧
    contract_action "http://h/api" "g1" "approve" none = .error .commentRequired ∧
    (∃ r, contract_action "http://h/api" "g1" "revise" none = .ok r) :=
  ⟨(action_dispatch_preflight "http://h/api" "g1" "bogus" none).1 (by decide),
   (action_dispatch_preflight "http://h/api" "g1" "approve" none).2.1
     (by decide) (by decide) rfl,
   (action_dispatch_preflight "http://h/api" "g1" "clear" none).2.2.1.mpr
     ⟨by decide, fun h => absurd h (by decide)⟩,
   (action_dispatch_preflight "http://h/api" "g1" "bogus" none).2.2.2.1 (by decide),
   (action_dispatch_preflight "http://h/api" "g1" "approve" none).2.2.2.2.1
     (by decide) (by decide) rfl,
   (action_dispatch_preflight "http://h/api" "g1" "revise" none).2.2.2.2.2.mpr
     ⟨by decide, fun h => absurd h (by decide)⟩⟩

/-! ### Claim C10: `lookup_user_x` default parameter -/

/-- C10: with the `resource_parameters` argument omitted,
`lookup_user_x` raises `AttributeError` before any request is built
(its default is `None` and `parameter_string()` is called on it
unconditionally), while the siblings `patch_user_x`, `create_user_x`
and `lookup_adjustment`, whose default is `ResourceParameters(None)`,
build their request successfully with no parameters. -/
theorem lookup_user_x_default_attribute_error
    (base_url tc_number guid : String) (body : List (String × JsonVal)) :
    lookup_user_x base_url tc_number guid = .error .attributeError ∧
    patch_user_x base_url tc_number guid body =
      .ok { method := .PUT,
            url := user_x_url_base base_url ++ tc_number ++ "/" ++ guid,
            jsonBody := some body, params := none } ∧
    create_user_x base_url tc_number body =
      .ok { method := .POST, url := user_x_url_base base_url ++ tc_number,
            jsonBody := some body, params := none } ∧
    lookup_adjustment base_url guid =
      .ok { method := .GET,
            url := adjustment_headers_url base_url ++ "/" ++ guid,
            params := none } :=
  ⟨rfl, rfl, rfl, rfl⟩

/-! ### Claim C7: the `Collection` attribute mapping -/

/-- C7 (the code evaluated at a failing input): on an envelope with
`nextPageUrl = "NEXT"` and `previousPageUrl = "PREV"`, the constructed
`Collection` has `next_page_url = "PREV"` and
`previous_page_url = "NEXT"` — the two page-URL attributes are swapped
relative to their envelope fields — while `items`, `item_count`,
`total_item_count` and `guids` (in item order) are exposed as the
claim states. -/
theorem collection_swaps_page_urls :
    ∃ c, mkCollection demoCollectionResponse = .ok c ∧
      c.next_page_url = .str "PREV" ∧
      c.previous_page_url = .str "NEXT" ∧
      c.items = .arr [.obj [("guid", .str "g1")], .obj [("guid", .str "g2")]] ∧
      c.item_count = .num 2 ∧
      c.total_item_count = .num 10 ∧
      c.guids = [.str "g1", .str "g2"] :=
  ⟨_, rfl, rfl, rfl, rfl, rfl, rfl, rfl⟩

/-! ### The retry loop: master characterization -/

theorem nthResp_succ_shift (resp : Response) (env : Env) (j : Nat) :
    nthResp (env.sendResp env.sendIdx)
      { env with sendIdx := env.sendIdx + 1, loginIdx := env.loginIdx + 1 } j =
    nthResp resp env (j + 1) := by
  cases j with
  | zero => simp [nthResp]
  | succ i =>
      show env.sendResp (env.sendIdx + 1 + i) = env.sendResp (env.sendIdx + (i + 1))
      congr 1
      omega

theorem retryLoop_spec (codes : List Nat) (backoff : Nat) :
    ∀ (fuel : Nat) (retry_time : Nat) (st : ClientState) (env : Env)
      (tr : List Event) (resp : Response),
    ∃ (k : Nat) (hOut hIn : Nat → List (String × String)) (stF : ClientState),
      retryLoop codes backoff fuel retry_time st env tr resp =
        ⟨stF,
         { env with sendIdx := env.sendIdx + k, loginIdx := env.loginIdx + k },
         tr ++ (List.range k).flatMap
           (fun i => attemptBlock (retry_time * backoff ^ i) (hOut i) (hIn i)),
         nthResp resp env k⟩ ∧
      k ≤ fuel ∧
      (∀ i, i < k → (nthResp resp env i).status_code ∈ codes) ∧
      (k < fuel → (nthResp resp env k).status_code ∉ codes) := by
  intro fuel
  induction fuel with
  | zero =>
      intro retry_time st env tr resp
      refine ⟨0, fun _ => [], fun _ => [], st, ?_, Nat.le_refl 0, ?_, ?_⟩
      · show (⟨st, env, tr, resp⟩ : RunResult) = _
        refine RunResult.ext rfl (Env.ext rfl rfl (by dsimp <;> omega) (by dsimp <;> omega)) ?_ rfl
        simp
      · intro i hi
        exact absurd hi (Nat.not_lt_zero i)
      · intro h
        exact absurd h (Nat.lt_irrefl 0)
  | succ fuel ih =>
      intro retry_time st env tr resp
      by_cases hmem : resp.status_code ∈ codes
      · have hbreak : fuel = 0 →
            retryLoop codes backoff (fuel + 1) retry_time st env tr resp =
              ⟨retryCycleState st (env.loginResp env.loginIdx),
               { env with sendIdx := env.sendIdx + 1, loginIdx := env.loginIdx + 1 },
               tr ++ attemptBlock retry_time st.headers
                 (retryCycleState st (env.loginResp env.loginIdx)).session_headers,
               env.sendResp env.sendIdx⟩ := by
          intro hf
          subst hf
          simp only [retryLoop]
          rw [if_pos hmem]
          simp [logout, login, session_send, retryCycleState, attemptBlock]
        have hstep : fuel ≠ 0 →
            retryLoop codes backoff (fuel + 1) retry_time st env tr resp =
              retryLoop codes backoff fuel (retry_time * backoff)
                (retryCycleState st (env.loginResp env.loginIdx))
                { env with sendIdx := env.sendIdx + 1, loginIdx := env.loginIdx + 1 }
                (tr ++ attemptBlock retry_time st.headers
                  (retryCycleState st (env.loginResp env.loginIdx)).session_headers)
                (env.sendResp env.sendIdx) := by
          intro hf
          simp only [retryLoop]
          rw [if_pos hmem]
          simp [logout, login, session_send, retryCycleState, attemptBlock, hf]
        by_cases hf : fuel = 0
        · subst hf
          refine ⟨1, fun _ => st.headers,
            fun _ => (retryCycleState st (env.loginResp env.loginIdx)).session_headers,
            retryCycleState st (env.loginResp env.loginIdx),
            ?_, Nat.le_refl 1, ?_, ?_⟩
          · rw [hbreak rfl]
            refine RunResult.ext rfl (Env.ext rfl rfl rfl rfl) ?_ ?_
            · simp [List.range_succ]
            · simp [nthResp]
          · intro i hi
            have hi0 : i = 0 := by omega
            subst hi0
            simpa [nthResp] using hmem
          · intro h
            exact absurd h (Nat.lt_irrefl 1)
        · obtain ⟨k', hOut', hIn', stF', heq, hle, hpre, hexit⟩ :=
            ih (retry_time * backoff)
              (retryCycleState st (env.loginResp env.loginIdx))
              { env with sendIdx := env.sendIdx + 1, loginIdx := env.loginIdx + 1 }
              (tr ++ attemptBlock retry_time st.headers
                (retryCycleState st (env.loginResp env.loginIdx)).session_headers)
              (env.sendResp env.sendIdx)
          refine ⟨k' + 1, consFun st.headers hOut',
            consFun (retryCycleState st (env.loginResp env.loginIdx)).session_headers hIn',
            stF', ?_, Nat.succ_le_succ hle, ?_, ?_⟩
          · rw [hstep hf, heq]
            refine RunResult.ext rfl (Env.ext rfl rfl (by dsimp <;> omega) (by dsimp <;> omega)) ?_ ?_
            · have harg : ∀ i : Nat, retry_time * backoff * backoff ^ i
                  = retry_time * backoff ^ (i + 1) := by
                intro i
                rw [pow_succ]
                ring
              simp only [List.range_succ_eq_map, List.flatMap_cons, List.flatMap_map,
                         consFun, pow_zero, mul_one, List.append_assoc, harg,
                         Nat.succ_eq_add_one]
            · exact nthResp_succ_shift resp env k'
          · intro i hi
            cases i with
            | zero => simpa [nthResp] using hmem
            | succ j =>
                have hj : j < k' := by omega
                have hmem2 := hpre j hj
                rwa [nthResp_succ_shift resp env j] at hmem2
          · intro hlt
            have hout := hexit (by omega)
            rwa [nthResp_succ_shift resp env k'] at hout
      · refine ⟨0, fun _ => [], fun _ => [], st, ?_, Nat.zero_le _, ?_, ?_⟩
        · show retryLoop codes backoff (fuel + 1) retry_time st env tr resp = _
          simp only [retryLoop]
          rw [if_neg hmem]
          refine RunResult.ext rfl (Env.ext rfl rfl (by dsimp <;> omega) (by dsimp <;> omega)) ?_ rfl
          simp
        · intro i hi
          exact absurd hi (Nat.not_lt_zero i)
        · intro _
          simpa [nthResp] using hmem

theorem send_request_spec (cfg : Config) (st : ClientState) (env : Env) :
    ∃ (k : Nat) (hOut hIn : Nat → List (String × String)),
      k ≤ cfg.number_of_retries ∧
      (send_request cfg st env).trace =
        Event.send st.session_headers ::
          (List.range k).flatMap
            (fun i => attemptBlock (cfg.retry_delay * cfg.retry_backoff ^ i)
              (hOut i) (hIn i)) ∧
      (send_request cfg st env).response = env.sendResp (env.sendIdx + k) ∧
      (∀ i, i < k →
        (env.sendResp (env.sendIdx + i)).status_code ∈ cfg.error_codes_to_retry) ∧
      (k < cfg.number_of_retries →
        (env.sendResp (env.sendIdx + k)).status_code ∉ cfg.error_codes_to_retry) ∧
      (cfg.number_of_retries = 0 → k = 0) := by
  by_cases hN : 0 < cfg.number_of_retries
  · obtain ⟨k, hOut, hIn, stF, heq, hk, hpre, hexit⟩ :=
      retryLoop_spec cfg.error_codes_to_retry cfg.retry_backoff
        cfg.number_of_retries cfg.retry_delay st
        { env with sendIdx := env.sendIdx + 1 }
        [Event.send st.session_headers] (env.sendResp env.sendIdx)
    have hsr : send_request cfg st env =
        retryLoop cfg.error_codes_to_retry cfg.retry_backoff
          cfg.number_of_retries cfg.retry_delay st
          { env with sendIdx := env.sendIdx + 1 }
          [Event.send st.session_headers] (env.sendResp env.sendIdx) := by
      simp only [send_request, session_send]
      rw [if_pos hN]
    have hshift : ∀ j, nthResp (env.sendResp env.sendIdx)
        { env with sendIdx := env.sendIdx + 1 } j = env.sendResp (env.sendIdx + j) := by
      intro j
      cases j with
      | zero => simp [nthResp]
      | succ i =>
          show env.sendResp (env.sendIdx + 1 + i) = env.sendResp (env.sendIdx + (i + 1))
          congr 1
          omega
    refine ⟨k, hOut, hIn, hk, ?_, ?_, ?_, ?_, ?_⟩
    · rw [hsr, heq]
      rfl
    · rw [hsr, heq]
      exact hshift k
    · intro i hi
      have h2 := hpre i hi
      rwa [hshift i] at h2
    · intro hlt
      have h2 := hexit hlt
      rwa [hshift k] at h2
    · intro h0
      omega
  · have hsr : send_request cfg st env =
        ⟨st, { env with sendIdx := env.sendIdx + 1 },
         [Event.send st.session_headers], env.sendResp env.sendIdx⟩ := by
      simp only [send_request, session_send]
      rw [if_neg hN]
    refine ⟨0, fun _ => [], fun _ => [], Nat.zero_le _, ?_, ?_, ?_, ?_, fun _ => rfl⟩
    · rw [hsr]
      simp
    · rw [hsr]
      simp
    · intro i hi
      exact absurd hi (Nat.not_lt_zero i)
    · intro hlt
      exact absurd hlt hN

/-! ### Claim C1: the retry contract of `_send_request` -/

/-- C1: every retry attempt is exactly one logout-then-login cycle
followed by one re-send of the same logical request (the run's trace is
the initial send followed by `k` attempt blocks); at most
`number_of_retries` attempts occur; with `number_of_retries = 0` the
retry logic is skipped entirely and the first response is returned
as-is regardless of its status code; a retryable response is retried
while attempts remain (if the run stops short of the bound, the last
response is not retryable); and the caller always receives the last
response received, the run being a total function that raises nothing. -/
theorem send_request_retry_contract (cfg : Config) (st : ClientState) (env : Env)
    (h0 : env.sendIdx = 0) :
    ∃ (k : Nat) (hOut hIn : Nat → List (String × String)),
      k ≤ cfg.number_of_retries ∧
      (send_request cfg st env).trace =
        Event.send st.session_headers ::
          (List.range k).flatMap
            (fun i => attemptBlock (cfg.retry_delay * cfg.retry_backoff ^ i)
              (hOut i) (hIn i)) ∧
      (send_request cfg st env).response = env.sendResp k ∧
      (∀ i, i < k → (env.sendResp i).status_code ∈ cfg.error_codes_to_retry) ∧
      (k < cfg.number_of_retries →
        (env.sendResp k).status_code ∉ cfg.error_codes_to_retry) ∧
      (cfg.number_of_retries = 0 →
        (send_request cfg st env).trace = [Event.send st.session_headers] ∧
        (send_request cfg st env).response = env.sendResp 0) := by
  obtain ⟨k, hOut, hIn, hk, htr, hresp, hpre, hexit, hzero⟩ := send_request_spec cfg st env
  rw [h0] at hresp hpre hexit
  simp only [Nat.zero_add] at hresp hpre hexit
  refine ⟨k, hOut, hIn, hk, htr, hresp, hpre, hexit, ?_⟩
  intro hN0
  have hk0 := hzero hN0
  subst hk0
  exact ⟨by simpa using htr, hresp⟩

/-- Witness for C1 on a concrete run: defaults-like configuration, first
response 500, recovery on the resend. -/
theorem send_request_retry_contract_witness :
    ∃ (k : Nat) (hOut hIn : Nat → List (String × String)),
      k ≤ demoConfig.number_of_retries ∧
      (send_request demoConfig demoState demoEnv).trace =
        Event.send demoState.session_headers ::
          (List.range k).flatMap
            (fun i => attemptBlock (demoConfig.retry_delay * demoConfig.retry_backoff ^ i)
              (hOut i) (hIn i)) ∧
      (send_request demoConfig demoState demoEnv).response = demoEnv.sendResp k ∧
      (∀ i, i < k →
        (demoEnv.sendResp i).status_code ∈ demoConfig.error_codes_to_retry) ∧
      (k < demoConfig.number_of_retries →
        (demoEnv.sendResp k).status_code ∉ demoConfig.error_codes_to_retry) ∧
      (demoConfig.number_of_retries = 0 →
        (send_request demoConfig demoState demoEnv).trace
          = [Event.send demoState.session_headers] ∧
        (send_request demoConfig demoState demoEnv).response = demoEnv.sendResp 0) :=
  send_request_retry_contract demoConfig demoState demoEnv rfl

/-! ### Claim C2: the sleep sequence -/

theorem filterMap_flatMap {α β γ : Type _} (l : List α) (f : α → List β)
    (g : β → Option γ) :
    (l.flatMap f).filterMap g = l.flatMap fun a => (f a).filterMap g := by
  induction l with
  | nil => rfl
  | cons a t ih => simp [List.flatMap_cons, List.filterMap_append, ih]

/-- C2: in the trace of a `_send_request` run, the n-th retry attempt
(n starting at 1) sleeps `retry_delay * retry_backoff ^ (n - 1)` seconds
immediately before its logout/login cycle, and after each re-login the
loop sleeps a fixed settle delay of one second, constant and independent
of the backoff sequence: the sleep durations of the run are exactly
`d·b⁰, 1, d·b¹, 1, …` in that order. -/
theorem send_request_sleep_backoff (cfg : Config) (st : ClientState) (env : Env) :
    ∃ (k : Nat) (hOut hIn : Nat → List (String × String)),
      k ≤ cfg.number_of_retries ∧
      (send_request cfg st env).trace =
        Event.send st.session_headers ::
          (List.range k).flatMap
            (fun i => attemptBlock (cfg.retry_delay * cfg.retry_backoff ^ i)
              (hOut i) (hIn i)) ∧
      sleepsOf (send_request cfg st env).trace =
        (List.range k).flatMap
          (fun i => [cfg.retry_delay * cfg.retry_backoff ^ i, 1]) := by
  obtain ⟨k, hOut, hIn, hk, htr, _, _, _, _⟩ := send_request_spec cfg st env
  refine ⟨k, hOut, hIn, hk, htr, ?_⟩
  rw [htr]
  have h1 : ∀ L, sleepsOf (Event.send st.session_headers :: L) = sleepsOf L := by
    intro L
    simp [sleepsOf]
  rw [h1, sleepsOf, filterMap_flatMap]
  congr 1

/-! ### Claim C6: malformed bodies and retry independence -/

theorem countP_loginPost_cons_send (h : List (String × String)) (L : List Event) :
    (Event.send h :: L).countP isLoginPost = L.countP isLoginPost := by
  simp [List.countP_cons, isLoginPost]

theorem countP_loginPost_flatMap (k : Nat) (d : Nat → Nat)
    (hOut hIn : Nat → List (String × String)) :
    ((List.range k).flatMap fun i => attemptBlock (d i) (hOut i) (hIn i)).countP
      isLoginPost = k := by
  induction k with
  | zero => rfl
  | succ n ih =>
      rw [List.range_succ, List.flatMap_append, List.countP_append, ih]
      simp [attemptBlock, isLoginPost, List.countP_cons]

/-- C6: a response whose body is not parseable as JSON yields an
`AlliantApiResponse` with `has_errors = True`, `result = None` and empty
error/warning lists — an error outcome — and a malformed body never by
itself causes `_send_request` to retry: the number of retry attempts is
a function of the responses' status codes alone, so two servers whose
responses agree on status codes while their bodies differ arbitrarily
produce identical retry behaviour. -/
theorem malformed_body_error_no_retry
    (r : Response) (hr : r.body = none)
    (cfg : Config) (st st' : ClientState) (env env' : Env)
    (h0 : env.sendIdx = 0) (h0' : env'.sendIdx = 0)
    (hstat : ∀ n, (env.sendResp n).status_code = (env'.sendResp n).status_code) :
    mkAlliantApiResponse r =
      { status_code := r.status_code, errors := .arr [], has_errors := .bool true,
        result := .null, warnings := .arr [], has_warnings := .bool false } ∧
    numAttempts cfg st env = numAttempts cfg st' env' := by
  constructor
  · simp [mkAlliantApiResponse, hr]
  · obtain ⟨k, hOut, hIn, hk, htr, _, hpre, hexit, _⟩ := send_request_spec cfg st env
    obtain ⟨k', hOut', hIn', hk', htr', _, hpre', hexit', _⟩ :=
      send_request_spec cfg st' env'
    rw [h0] at hpre hexit
    rw [h0'] at hpre' hexit'
    simp only [Nat.zero_add] at hpre hexit hpre' hexit'
    have hA : numAttempts cfg st env = k := by
      rw [numAttempts, htr, countP_loginPost_cons_send, countP_loginPost_flatMap]
    have hA' : numAttempts cfg st' env' = k' := by
      rw [numAttempts, htr', countP_loginPost_cons_send, countP_loginPost_flatMap]
    rw [hA, hA']
    rcases Nat.lt_trichotomy k k' with hlt | hEq | hgt
    · exfalso
      have h1 := hpre' k hlt
      have h2 := hexit (by omega)
      rw [hstat k] at h2
      exact h2 h1
    · exact hEq
    · exfalso
      have h1 := hpre k' hgt
      have h2 := hexit' (by omega)
      rw [hstat k'] at h1
      exact h2 h1

/-- Witness for C6: a malformed-body 500 response, and two servers
agreeing on status codes with different bodies. -/
theorem malformed_body_error_no_retry_witness :
    mkAlliantApiResponse ⟨500, none⟩ =
      { status_code := 500, errors := .arr [], has_errors := .bool true,
        result := .null, warnings := .arr [], has_warnings := .bool false } ∧
    numAttempts demoConfig demoState demoEnv =
      numAttempts demoConfig demoState
        { demoEnv with sendResp := fun n =>
            if n = 0 then ⟨500, some [("oops", .null)]⟩ else ⟨200, none⟩ } :=
  malformed_body_error_no_retry ⟨500, none⟩ rfl demoConfig demoState demoState
    demoEnv
    { demoEnv with sendResp := fun n =>
        if n = 0 then ⟨500, some [("oops", .null)]⟩ else ⟨200, none⟩ }
    rfl rfl
    (fun n => by by_cases hn : n = 0 <;> simp [demoEnv, hn])

/-! ### Claim C4: headers and the token lifecycle -/

/-- C4 counterexample: from a logged-in state, `logout` changes the
token field (clears it to `None`) but the headers mapping is not
rebuilt — the `X-AlliantSession` entry of both header dicts still
carries the old token, so the header does not reflect the new (cleared)
token value. -/
theorem logout_keeps_stale_header :
    (logout staleState).1.token = none ∧
    dictLookup (logout staleState).1.headers "X-AlliantSession" = some "oldtok" ∧
    dictLookup (logout staleState).1.session_headers "X-AlliantSession"
      = some "oldtok" :=
  ⟨rfl, rfl, rfl⟩

/-- C4 (amended): the headers mapping is rebuilt only by a successful
login: `logout` clears the token but leaves both header mappings
untouched (they keep the stale token until the next successful login);
after a logout-then-login cycle whose login response carries a fresh
token `t`, both the client's header dict and the session headers map
`X-AlliantSession` to exactly `t`, and the request re-sent by the retry
loop carries the session headers of that moment — hence the freshly
issued token and no stale remnant under that header. -/
theorem headers_rebuilt_only_on_login (st : ClientState) (env : Env) (t e : String)
    (hnd : (st.headers.map Prod.fst).Nodup)
    (hbody : (env.loginResp env.loginIdx).result = some ⟨some t, some e⟩) :
    (∀ st' : ClientState, (logout st').1.token = none ∧
      (logout st').1.headers = st'.headers ∧
      (logout st').1.session_headers = st'.session_headers) ∧
    (retryCycleState st (env.loginResp env.loginIdx)).token = some t ∧
    dictLookup (retryCycleState st (env.loginResp env.loginIdx)).headers
      "X-AlliantSession" = some t ∧
    dictLookup (retryCycleState st (env.loginResp env.loginIdx)).session_headers
      "X-AlliantSession" = some t ∧
    (∀ (st' : ClientState) (env' : Env),
      (session_send st' env').2.2 = Event.send st'.session_headers) := by
  refine ⟨fun st' => ⟨rfl, rfl, rfl⟩, ?_, ?_, ?_, fun st' env' => rfl⟩
  · unfold retryCycleState applyLoginBody
    rw [hbody]
  · unfold retryCycleState applyLoginBody
    rw [hbody]
    exact dictLookup_dictSet_self st.headers _ t
  · unfold retryCycleState applyLoginBody
    rw [hbody]
    exact dictLookup_dictUpdate_dictSet st.headers _ t st.session_headers hnd

/-- Witness for the amended C4 on a concrete logged-in state and a
login that issues the fresh token `tok2`. -/
theorem headers_rebuilt_only_on_login_witness :
    (retryCycleState staleState (demoEnv.loginResp demoEnv.loginIdx)).token
      = some "tok2" ∧
    dictLookup (retryCycleState staleState (demoEnv.loginResp demoEnv.loginIdx)).headers
      "X-AlliantSession" = some "tok2" ∧
    dictLookup
      (retryCycleState staleState (demoEnv.loginResp demoEnv.loginIdx)).session_headers
      "X-AlliantSession" = some "tok2" :=
  ⟨(headers_rebuilt_only_on_login staleState demoEnv "tok2" "exp2"
      (by decide) rfl).2.1,
   (headers_rebuilt_only_on_login staleState demoEnv "tok2" "exp2"
      (by decide) rfl).2.2.1,
   (headers_rebuilt_only_on_login staleState demoEnv "tok2" "exp2"
      (by decide) rfl).2.2.2.1⟩

/-! ### Claim C5: login failure is signaled, not raised -/

/-- C5: when the login response body lacks the token field, `login`
leaves the session token unset (`None` — the implicit logout has already
cleared any previous token and the failure path assigns nothing), and
returns the raw failure response as data for the caller to inspect
(wrapped by `AlliantApiResponse` at the source's return site); the
modelled `login` is a total function of its inputs, so no exception is
raised on this path. -/
theorem login_missing_token_leaves_token_unset (st : ClientState) (env : Env)
    (hne : st.token ≠ some "")
    (hmiss : ∀ r, (env.loginResp env.loginIdx).result = some r → r.token = none) :
    (login st env).1.token = none ∧
    (login st env).2.2.2 = env.loginResp env.loginIdx := by
  constructor
  · rcases hst : st.token with _ | tok
    · rcases hres : (env.loginResp env.loginIdx).result with _ | r
      · simp [login, applyLoginBody, hst, hres]
      · simp [login, applyLoginBody, hst, hres, hmiss r hres]
    · have htok : tok.isEmpty = false := by
        by_cases h : tok.isEmpty
        · exact absurd (hst.trans (congrArg some ((String.isEmpty_iff tok).mp h))) hne
        · simpa using h
      rcases hres : (env.loginResp env.loginIdx).result with _ | r
      · simp [login, applyLoginBody, logout, hst, htok, hres]
      · simp [login, applyLoginBody, logout, hst, htok, hres, hmiss r hres]
  · rfl

/-- Witness for C5: a logged-in client and a login response whose
`result` object has no token. -/
theorem login_missing_token_witness :
    (login staleState failLoginEnv).1.token = none ∧
    (login staleState failLoginEnv).2.2.2
      = failLoginEnv.loginResp failLoginEnv.loginIdx :=
  login_missing_token_leaves_token_unset staleState failLoginEnv
    (by decide) (fun r hr => by cases hr; rfl)

end AlliantApi
